import Mathlib

/-!
Verification of the SQL_GeneratorBOT query pipeline.

Strings from the Python source are modelled as lists of characters
(`Str := List Char`); every Python string operation used by the pipeline
(substring membership, `str.lower`, `str.upper`, `str.strip`,
`str.rstrip`, the regular expressions of `sanitizer.py` and
`sql_generator.py`) is embedded as an executable Lean function on
`List Char`, restricted to the ASCII behaviour the source exercises.
Python `float` values are modelled as exact rationals.
-/

set_option maxRecDepth 10000

/-- Strings of the embedded program: lists of characters. -/
abbrev Str : Type := List Char

/-- Coercion from Lean string literals to the model type. -/
def lit (s : String) : Str := s.toList

/-- ASCII whitespace, the characters matched by Python's `\s` and stripped
by `str.strip()` on the ASCII inputs the pipeline handles. -/
def isWS (c : Char) : Bool :=
  c = ' ' || c = '\t' || c = '\n' || c = '\r' || c = Char.ofNat 11 || c = Char.ofNat 12

/-- Lowercasing, as Python `str.lower` on ASCII. -/
def lower (l : Str) : Str := List.map Char.toLower l

/-- Uppercasing, as Python `str.upper` on ASCII. -/
def upper (l : Str) : Str := List.map Char.toUpper l

/-- Substring membership: Python's `needle in hay` on strings. -/
def containsB (needle : Str) : Str → Bool
  | [] => List.isPrefixOf needle []
  | c :: t => List.isPrefixOf needle (c :: t) || containsB needle t

/-- Leading-whitespace removal (left half of Python `str.strip()`). -/
def ltrim (l : Str) : Str := List.dropWhile isWS l

/-- Trailing-whitespace removal (right half of Python `str.strip()`). -/
def rtrim (l : Str) : Str := List.reverse (List.dropWhile isWS (List.reverse l))

/-- Python `str.strip()`. -/
def stripWS (l : Str) : Str := rtrim (ltrim l)

/-- Python `str.rstrip(';')`: removes every trailing semicolon. -/
def rstripSemi (l : Str) : Str :=
  List.reverse (List.dropWhile (fun c => c = ';') (List.reverse l))

/-- Effect of `re.sub(r';\s*$', '', sql)` in `wrap_with_limit`: if the string
ends in a semicolon followed only by whitespace, drop that semicolon and the
whitespace after it; otherwise leave the string unchanged.  (The regex finds
the unique semicolon whose suffix is all whitespace; `$` together with a
greedy `\s*` reaches the true end of the string.) -/
def stripTrailingSemi (l : Str) : Str :=
  let r := List.dropWhile isWS (List.reverse l)
  match r with
  | ';' :: rest => List.reverse rest
  | _ => l

/-- Word characters of Python's `\w` / `\b` (ASCII). -/
def isWordChar (c : Char) : Bool := c.isAlphanum || c = '_'

/-- Does the regex `^\s*select\b` (case-insensitively) match `l`?  Mirrors the
anchor check of `is_safe_select` and the `re.match(r'^\s*SELECT\b', ...)` of
`clean_sql`. -/
def startsSelectB (l : Str) : Bool :=
  let t := ltrim l
  List.isPrefixOf (lit "select") (lower t) &&
    (match List.drop 6 t with
     | [] => true
     | c :: _ => !(isWordChar c))

/-- Denylist of `sanitizer.py` (`DISALLOWED`). -/
def DISALLOWED : List Str :=
  [lit "insert", lit "update", lit "delete", lit "drop", lit "alter",
   lit "create", lit "truncate", lit "grant", lit "revoke", lit "copy",
   lit ";", lit "--"]

/-- Embedding of `is_safe_select` from `src/backend/app/utils/sanitizer.py`.
The `sqlparse.parse` guard of the source returns a non-empty parse for every
non-empty input string, so after the leading emptiness check it never
rejects; it is therefore not re-modelled here. -/
def is_safe_select (sql : Str) : Bool :=
  if sql = ([] : Str) then false
  else
    let sql_low := lower sql
    if DISALLOWED.any (fun kw => containsB kw sql_low) then false
    else startsSelectB sql_low

/-- Embedding of `wrap_with_limit` from `src/backend/app/utils/sanitizer.py`.
The parameter dictionary is modelled as an association list. -/
def wrap_with_limit (sql : Str) (max_rows : Int) : Str × List (Str × Int) :=
  let sql' := stripTrailingSemi sql
  (lit "SELECT * FROM (" ++ sql' ++ lit ") AS _sub LIMIT :_limit",
   [(lit "_limit", max_rows)])

example : is_safe_select (lit "SELECT * FROM orders") = true := by decide
example : is_safe_select (lit "") = false := by decide
example : is_safe_select (lit "  select 1") = true := by decide
example : is_safe_select (lit "selectx") = false := by decide
example : is_safe_select (lit "SELECT 1; DROP TABLE t") = false := by decide
example : is_safe_select (lit "SELECT created_at FROM t") = false := by decide
example :
    (wrap_with_limit (lit "SELECT * FROM orders;  ") 50).1 =
      lit "SELECT * FROM (SELECT * FROM orders) AS _sub LIMIT :_limit" := by decide

/-- Default row cap: `int(os.getenv("MAX_QUERY_ROWS", "1000"))` with the
environment unset, as in the documented configuration. -/
def MAX_ROWS_DEFAULT : Nat := 1000

/-- Text appended by `clean_sql` when no LIMIT clause is present:
`f" LIMIT <MAX_ROWS_DEFAULT>"` minus the original string. -/
def limitClause : Str := lit " LIMIT " ++ lit (Nat.repr MAX_ROWS_DEFAULT)

/-- Case-insensitive prefix test for an already-lowercase pattern. -/
def prefixCI (pat l : Str) : Bool := List.isPrefixOf pat (lower l)

/-- Fuel-indexed scanner for `re.sub(r'```sql\s*', '', sql, re.IGNORECASE)`:
scan left to right; at the leftmost occurrence of a "```sql" fence marker
drop it and the whitespace after it, then continue scanning after the
removed text.  The fuel only serves structural recursion; it never runs out
when it starts at the length of the list. -/
def removeFenceSqlAux : Nat → Str → Str
  | _, [] => []
  | 0, l => l
  | fuel + 1, c :: rest =>
    if prefixCI (lit "```sql") (c :: rest) then
      removeFenceSqlAux fuel (ltrim (List.drop 6 (c :: rest)))
    else c :: removeFenceSqlAux fuel rest

/-- Effect of `re.sub(r'```sql\s*', '', sql, flags=re.IGNORECASE)`. -/
def removeFenceSql (l : Str) : Str := removeFenceSqlAux (List.length l) l

/-- Fuel-indexed scanner for `re.sub(r'```\s*', '', sql)`: same scan for a
bare "```" fence marker. -/
def removeFenceAux : Nat → Str → Str
  | _, [] => []
  | 0, l => l
  | fuel + 1, c :: rest =>
    if List.isPrefixOf (lit "```") (c :: rest) then
      removeFenceAux fuel (ltrim (List.drop 3 (c :: rest)))
    else c :: removeFenceAux fuel rest

/-- Effect of `re.sub(r'```\s*', '', sql)`. -/
def removeFence (l : Str) : Str := removeFenceAux (List.length l) l

/-- Both code-fence removals of `clean_sql`, in source order. -/
def defence (l : Str) : Str := removeFence (removeFenceSql l)

/-- Distance to the first position where `LIMIT` starts (case-insensitively),
or the length of the list when there is none.  Models the `(?=LIMIT|\Z)`
lookahead a lazy `.+?` stops at. -/
def stopLen : Str → Nat
  | [] => 0
  | c :: rest => if prefixCI (lit "limit") (c :: rest) then 0 else 1 + stopLen rest

/-- Attempt of the regex `SELECT\s+.+?(?=LIMIT|\Z)` (IGNORECASE, DOTALL) to
match at the start of `l`, returning the matched text.  After the literal
`SELECT`, `\s+` greedily takes the maximal whitespace run of length `k ≥ 1`;
the lazy `.+?` must consume at least one character and stops at the first
later position where `LIMIT` starts, or at the end of the string.  When
nothing follows the whitespace run, `\s+` backtracks one character so that
`.+?` can consume it, which needs `k ≥ 2`. -/
def trySelectAt (l : Str) : Option Str :=
  if prefixCI (lit "select") l then
    let after := List.drop 6 l
    let k := (List.takeWhile isWS after).length
    if k = 0 then none
    else if after.length = k then (if 2 ≤ k then some l else none)
    else some (List.take (6 + k + 1 + stopLen (List.drop (6 + k + 1) l)) l)
  else none

/-- Effect of `re.search(r'(SELECT\s+.+?(?=LIMIT|\Z))', sql, ...)` in
`clean_sql`: the leftmost position where `trySelectAt` succeeds. -/
def extractSelect : Str → Option Str
  | [] => none
  | c :: rest =>
    match trySelectAt (c :: rest) with
    | some g => some g
    | none => extractSelect rest

/-- The branch of `clean_sql` taken when the text does not start with
`SELECT`: extract the first SELECT span and strip it, else the empty
string. -/
def extractPart (u : Str) : Str :=
  match extractSelect u with
  | some g => stripWS g
  | none => ([] : Str)

/-- Does `GROUP\s+BY` match (case-insensitively) at the start of the
(lowercased) list? -/
def groupByAt (l : Str) : Bool :=
  prefixCI (lit "group") l &&
    (let r := List.drop 5 l
     let k := (List.takeWhile isWS r).length
     decide (1 ≤ k) && prefixCI (lit "by") (List.drop k r))

/-- Does `GROUP\s+BY` match anywhere in the (lowercased) list? -/
def containsGroupBy : Str → Bool
  | [] => false
  | c :: rest => groupByAt (c :: rest) || containsGroupBy rest

/-- The aggregate test of `clean_sql`:
`re.search(r'GROUP\s+BY|COUNT\(|SUM\(|AVG\(', sql, re.IGNORECASE)`. -/
def hasAgg (v : Str) : Bool :=
  containsGroupBy (lower v) || containsB (lit "count(") (lower v) ||
    containsB (lit "sum(") (lower v) || containsB (lit "avg(") (lower v)

/-- Final step of `clean_sql`: append the default LIMIT clause when the text
has no `LIMIT` and no aggregate construct. -/
def addLimit (v : Str) : Str :=
  if containsB (lit "LIMIT") (upper v) || hasAgg v then v else v ++ limitClause

/-- Embedding of `clean_sql` from `src/backend/app/llm/sql_generator.py`. -/
def clean_sql (sql : Str) : Str :=
  if sql = ([] : Str) then ([] : Str)
  else
    let u := rstripSemi (stripWS (defence sql))
    addLimit (if startsSelectB u then u else extractPart u)

example : clean_sql (lit "") = lit "" := by decide
example : clean_sql (lit "hello world") = lit " LIMIT 1000" := by decide
example : clean_sql (lit " LIMIT 1000") = lit " LIMIT 1000" := by decide
example : clean_sql (lit "SELECT 1") = lit "SELECT 1 LIMIT 1000" := by decide
example : clean_sql (lit "SELECT * FROM t LIMIT 5;") = lit "SELECT * FROM t LIMIT 5" := by
  decide
example :
    clean_sql (lit "answer: SELECT a FROM b LIMIT 5") =
      lit "SELECT a FROM b LIMIT 1000" := by decide
example : clean_sql (lit "```sql\nSELECT 1\n```") = lit "SELECT 1 LIMIT 1000" := by decide
example : clean_sql (lit "select a limit 5; ;;") = lit "select a limit 5; " := by decide
example : clean_sql (lit "select a limit 5; ") = lit "select a limit 5" := by decide
example : clean_sql (lit "SELECT COUNT(x) FROM t") = lit "SELECT COUNT(x) FROM t" := by
  decide

/-- Schema summary dictionary as consumed by `generate_local_sql`: the only
access is `schema_summary.get("tables", {})` followed by key-membership
tests, so the model records whether a `"tables"` key is present and, if so,
the list of table-name keys of its value.  The summary built by
`get_schema_summary` (`src/backend/app/utils/schema_loader.py`) has only the
top-level keys `"schema"` and `"samples"`, hence is modelled with
`tablesKey = none`. -/
structure SchemaSummary where
  tablesKey : Option (List Str)

/-- `schema_summary.get("tables", {})`, as a list of table-name keys. -/
def getTables (s : SchemaSummary) : List Str := s.tablesKey.getD []

/-- Dictionary key membership `t in tables`. -/
def elemStr (t : Str) (ts : List Str) : Bool := ts.any (fun x => decide (x = t))

/-- Python `any(word in question for word in words)`. -/
def anyWord (words : List Str) (q : Str) : Bool := words.any (fun w => containsB w q)

/-- Fallback template: revenue-by-customer (customer + spent/spending/total). -/
def fallbackCustomerSpent : Str :=
  lit "\n                SELECT c.customer_id, c.name, c.country, \n" ++
  lit "                       SUM(o.total_amount) as total_spent,\n" ++
  lit "                       COUNT(o.order_id) as order_count\n" ++
  lit "                FROM customers c\n" ++
  lit "                JOIN orders o ON c.customer_id = o.customer_id\n" ++
  lit "                WHERE o.status = 'completed'\n" ++
  lit "                GROUP BY c.customer_id, c.name, c.country\n" ++
  lit "                ORDER BY total_spent DESC\n" ++
  lit "                LIMIT " ++ lit (Nat.repr MAX_ROWS_DEFAULT) ++
  lit "\n                "

/-- Fallback template: plain customer listing. -/
def fallbackCustomerList : Str :=
  lit "\n                SELECT c.customer_id, c.name, c.email, c.country, c.registration_date\n" ++
  lit "                FROM customers c\n" ++
  lit "                ORDER BY c.registration_date DESC\n" ++
  lit "                LIMIT " ++ lit (Nat.repr MAX_ROWS_DEFAULT) ++
  lit "\n                "

/-- Fallback template: product sales aggregate. -/
def fallbackProductSales : Str :=
  lit "\n                SELECT p.product_id, p.name, p.category, \n" ++
  lit "                       SUM(oi.quantity) as total_quantity,\n" ++
  lit "                       SUM(oi.quantity * oi.unit_price) as total_revenue\n" ++
  lit "                FROM products p\n" ++
  lit "                JOIN order_items oi ON p.product_id = oi.product_id\n" ++
  lit "                JOIN orders o ON oi.order_id = o.order_id\n" ++
  lit "                WHERE o.status = 'completed'\n" ++
  lit "                GROUP BY p.product_id, p.name, p.category\n" ++
  lit "                ORDER BY total_revenue DESC\n" ++
  lit "                LIMIT " ++ lit (Nat.repr MAX_ROWS_DEFAULT) ++
  lit "\n                "

/-- Fallback template: product catalog listing. -/
def fallbackProductList : Str :=
  lit "\n                SELECT p.product_id, p.name, p.category, p.unit_price, p.supplier\n" ++
  lit "                FROM products p\n" ++
  lit "                ORDER BY p.name\n" ++
  lit "                LIMIT " ++ lit (Nat.repr MAX_ROWS_DEFAULT) ++
  lit "\n                "

/-- Fallback template: order listing with item counts. -/
def fallbackOrders : Str :=
  lit "\n            SELECT o.order_id, c.name as customer_name, c.country,\n" ++
  lit "                   o.order_date, o.total_amount, o.status,\n" ++
  lit "                   COUNT(oi.order_item_id) as item_count\n" ++
  lit "            FROM orders o\n" ++
  lit "            JOIN customers c ON o.customer_id = c.customer_id\n" ++
  lit "            LEFT JOIN order_items oi ON o.order_id = oi.order_id\n" ++
  lit "            GROUP BY o.order_id, c.name, c.country, o.order_date, o.total_amount, o.status\n" ++
  lit "            ORDER BY o.order_date DESC\n" ++
  lit "            LIMIT " ++ lit (Nat.repr MAX_ROWS_DEFAULT) ++
  lit "\n            "

/-- Fallback template: monthly revenue. -/
def fallbackMonthlyRevenue : Str :=
  lit "\n                SELECT DATE_TRUNC('month', o.order_date) as month,\n" ++
  lit "                       SUM(o.total_amount) as monthly_revenue,\n" ++
  lit "                       COUNT(DISTINCT o.customer_id) as unique_customers,\n" ++
  lit "                       COUNT(o.order_id) as order_count\n" ++
  lit "                FROM orders o\n" ++
  lit "                WHERE o.status = 'completed'\n" ++
  lit "                GROUP BY month\n" ++
  lit "                ORDER BY month DESC\n" ++
  lit "                LIMIT " ++ lit (Nat.repr MAX_ROWS_DEFAULT) ++
  lit "\n                "

/-- Fallback template: revenue by country. -/
def fallbackCountryRevenue : Str :=
  lit "\n                SELECT c.country,\n" ++
  lit "                       SUM(o.total_amount) as total_revenue,\n" ++
  lit "                       COUNT(DISTINCT o.customer_id) as customer_count\n" ++
  lit "                FROM orders o\n" ++
  lit "                JOIN customers c ON o.customer_id = c.customer_id\n" ++
  lit "                WHERE o.status = 'completed'\n" ++
  lit "                GROUP BY c.country\n" ++
  lit "                ORDER BY total_revenue DESC\n" ++
  lit "                LIMIT " ++ lit (Nat.repr MAX_ROWS_DEFAULT) ++
  lit "\n                "

/-- Fallback template: global revenue summary. -/
def fallbackRevenueSummary : Str :=
  lit "\n                SELECT SUM(o.total_amount) as total_revenue,\n" ++
  lit "                       COUNT(DISTINCT o.customer_id) as total_customers,\n" ++
  lit "                       AVG(o.total_amount) as avg_order_value\n" ++
  lit "                FROM orders o\n" ++
  lit "                WHERE o.status = 'completed'\n" ++
  lit "                LIMIT " ++ lit (Nat.repr MAX_ROWS_DEFAULT) ++
  lit "\n                "

/-- Fallback template: order-item detail join. -/
def fallbackOrderItems : Str :=
  lit "\n            SELECT oi.order_item_id, oi.order_id, p.name as product_name,\n" ++
  lit "                   oi.quantity, oi.unit_price, \n" ++
  lit "                   (oi.quantity * oi.unit_price) as item_total,\n" ++
  lit "                   c.name as customer_name\n" ++
  lit "            FROM order_items oi\n" ++
  lit "            JOIN orders o ON oi.order_id = o.order_id\n" ++
  lit "            JOIN products p ON oi.product_id = p.product_id\n" ++
  lit "            JOIN customers c ON o.customer_id = c.customer_id\n" ++
  lit "            ORDER BY oi.order_item_id DESC\n" ++
  lit "            LIMIT " ++ lit (Nat.repr MAX_ROWS_DEFAULT) ++
  lit "\n            "

/-- Fallback template: recent orders with customer names (default). -/
def fallbackRecentOrders : Str :=
  lit "\n        SELECT o.order_id, c.customer_id, c.name as customer_name, \n" ++
  lit "               o.order_date, o.total_amount, o.status\n" ++
  lit "        FROM orders o\n" ++
  lit "        JOIN customers c ON o.customer_id = c.customer_id\n" ++
  lit "        ORDER BY o.order_date DESC\n" ++
  lit "        LIMIT " ++ lit (Nat.repr MAX_ROWS_DEFAULT) ++
  lit "\n        "

/-- Fallback template: harmless metadata query when tables are missing. -/
def fallbackMetaQuery : Str :=
  lit "SELECT * FROM information_schema.tables WHERE table_schema = 'public'"

/-- The trailing part of `generate_local_sql` (the `# Default` section):
recent orders when `orders` and `customers` exist, else the metadata
query. -/
def localSqlDefault (tables : List Str) : Str :=
  if elemStr (lit "orders") tables && elemStr (lit "customers") tables then
    fallbackRecentOrders
  else fallbackMetaQuery

/-- Embedding of `generate_local_sql` from
`src/backend/app/llm/sql_generator.py`.  Each keyword branch whose inner
table check fails falls through to the `# Default` section, exactly as in
the source (the inner `if` has no `else`). -/
def generate_local_sql (user_question : Str) (schema_summary : SchemaSummary) : Str :=
  let question := lower user_question
  let tables := getTables schema_summary
  if anyWord [lit "customer", lit "client", lit "buyer"] question then
    if elemStr (lit "customers") tables && elemStr (lit "orders") tables then
      if containsB (lit "spent") question || containsB (lit "spending") question ||
          containsB (lit "total") question then
        fallbackCustomerSpent
      else fallbackCustomerList
    else localSqlDefault tables
  else if anyWord [lit "product", lit "item", lit "stock"] question then
    if elemStr (lit "products") tables then
      if containsB (lit "sold") question || containsB (lit "sales") question ||
          containsB (lit "popular") question then
        fallbackProductSales
      else fallbackProductList
    else localSqlDefault tables
  else if anyWord [lit "order", lit "purchase", lit "transaction"] question then
    if elemStr (lit "orders") tables && elemStr (lit "customers") tables then
      fallbackOrders
    else localSqlDefault tables
  else if anyWord [lit "revenue", lit "sales", lit "income", lit "profit"] question then
    if elemStr (lit "orders") tables then
      if containsB (lit "month") question || containsB (lit "monthly") question then
        fallbackMonthlyRevenue
      else if containsB (lit "country") question then fallbackCountryRevenue
      else fallbackRevenueSummary
    else localSqlDefault tables
  else if anyWord [lit "detail", lit "item", lit "line item", lit "what bought"] question then
    if elemStr (lit "order_items") tables && elemStr (lit "orders") tables &&
        elemStr (lit "products") tables then
      fallbackOrderItems
    else localSqlDefault tables
  else localSqlDefault tables

/-- Embedding of `detect_query_type` from
`src/backend/app/llm/answer_formatter.py`.  The source computes
`question.lower()` but never uses it; the `question` argument is kept for
signature fidelity. -/
def detect_query_type (sql question : Str) : Str :=
  let sqlU := upper sql
  let _questionLow := lower question
  if containsB (lit "JOIN") sqlU then
    if containsB (lit "CUSTOMER") sqlU && containsB (lit "PRODUCT") sqlU then
      lit "customer_product_relationship"
    else if containsB (lit "CUSTOMER") sqlU && containsB (lit "ORDER") sqlU then
      if containsB (lit "REVENUE") sqlU || containsB (lit "SUM") sqlU then
        lit "customer_revenue"
      else lit "customer_orders"
    else if containsB (lit "PRODUCT") sqlU &&
        (containsB (lit "SUM") sqlU || containsB (lit "COUNT") sqlU) then
      lit "product_sales"
    else if containsB (lit "DATE_TRUNC") sqlU || containsB (lit "MONTH") sqlU ||
        containsB (lit "YEAR") sqlU then
      lit "time_series"
    else lit "multi_table_general"
  else if containsB (lit "CUSTOMER") sqlU then lit "customer_list"
  else if containsB (lit "PRODUCT") sqlU then lit "product_list"
  else if containsB (lit "ORDER") sqlU then
    if containsB (lit "ITEM") sqlU then lit "order_details" else lit "order_list"
  else if containsB (lit "REVENUE") sqlU || containsB (lit "SUM") sqlU ||
      containsB (lit "TOTAL") sqlU then
    lit "aggregate"
  else lit "general"

example : is_safe_select fallbackCustomerSpent = true := by decide
example : is_safe_select fallbackMetaQuery = true := by decide
example :
    generate_local_sql (lit "Show top 5 customers")
        ⟨some [lit "customers", lit "orders"]⟩ = fallbackCustomerList := by decide
example :
    detect_query_type fallbackCustomerList (lit "Show top 5 customers") =
      lit "customer_list" := by decide
example :
    detect_query_type (lit "SELECT SUM(order_items.quantity) FROM order_items")
      (lit "total quantity sold") = lit "order_details" := by decide

/-- Scalar cell values of a result row.  Python `float` values are modelled
as exact rationals. -/
inductive Value
  | int (n : Int)
  | float (q : ℚ)
  | str (s : Str)
  | null
deriving DecidableEq

/-- Result rows: association lists from column name to value, modelling the
Python dicts produced by the query route. -/
abbrev Row : Type := List (Str × Value)

/-- Keys of a row dict, in insertion order (`list(sample_row.keys())`). -/
def rowKeys (r : Row) : List Str := List.map Prod.fst r

/-- Python `row.get(k)`: `None`-as-missing is modelled by `Option`. -/
def rowGet? (r : Row) (k : Str) : Option Value :=
  Option.map Prod.snd (List.find? (fun p => decide (p.1 = k)) r)

/-- Python `row.get(k, d)`. -/
def rowGetD (r : Row) (k : Str) (d : Value) : Value := (rowGet? r k).getD d

/-- Python `isinstance(v, (int, float))`. -/
def isNumV : Value → Bool
  | .int _ => true
  | .float _ => true
  | _ => false

/-- Python truth test on a value (`if val:` / `x or 0`): `None`, zero and
the empty string are falsy. -/
def falsy : Value → Bool
  | .null => true
  | .int n => decide (n = 0)
  | .float q => decide (q = 0)
  | .str s => List.isEmpty s

/-- Numeric value of an all-digit character list. -/
def digitsVal (l : List Char) : Nat := List.foldl (fun a c => 10 * a + (c.toNat - 48)) 0 l

/-- Exponent part of Python `float(string)` parsing, applied to a mantissa
already read: accepts the empty rest or `e`/`E`, an optional sign and a
digit run. -/
def parseExp (mant : Nat) (fracLen : Nat) (r : Str) : Option ℚ :=
  match r with
  | [] => some ((mant : ℚ) / 10 ^ fracLen)
  | e :: r2 =>
    if e = 'e' || e = 'E' then
      let sr := match r2 with
        | '+' :: t => ((1 : Int), t)
        | '-' :: t => ((-1 : Int), t)
        | t => ((1 : Int), t)
      let ds := List.takeWhile Char.isDigit sr.2
      if List.isEmpty ds || !(List.isEmpty (List.dropWhile Char.isDigit sr.2)) then none
      else some ((mant : ℚ) / 10 ^ fracLen * (10 : ℚ) ^ (sr.1 * (digitsVal ds : Int)))
    else none

/-- Unsigned part of Python `float(string)` parsing: digits with an optional
decimal point (at least one digit overall) and an optional exponent. -/
def parseUnsigned (t : Str) : Option ℚ :=
  let d1 := List.takeWhile Char.isDigit t
  let r1 := List.dropWhile Char.isDigit t
  match r1 with
  | '.' :: r2 =>
    let d2 := List.takeWhile Char.isDigit r2
    let r3 := List.dropWhile Char.isDigit r2
    if List.isEmpty d1 && List.isEmpty d2 then none
    else parseExp (digitsVal (d1 ++ d2)) (List.length d2) r3
  | _ => if List.isEmpty d1 then none else parseExp (digitsVal d1) 0 r1

/-- Python `float(string)` on the decimal forms the pipeline can meet:
optional surrounding whitespace, optional sign, digits with optional point
and exponent.  (`inf`/`nan` spellings and digit-group underscores are not
modelled; no claim depends on them.)  `none` models a raised
`ValueError`. -/
def parseFloat (s : Str) : Option ℚ :=
  let t := stripWS s
  match t with
  | '+' :: r => parseUnsigned r
  | '-' :: r => Option.map Neg.neg (parseUnsigned r)
  | r => parseUnsigned r

/-- Python `float(v)`; `none` models a raised exception. -/
def floatOfValue : Value → Option ℚ
  | .int n => some n
  | .float q => some q
  | .str s => parseFloat s
  | .null => none

/-- The idiom `float(x or 0)` applied to a value. -/
def toFloatOrZero (v : Value) : Option ℚ :=
  floatOfValue (if falsy v then Value.int 0 else v)

/-- Python `sum(float(row.get(col, 0) or 0) for row in rows)`; `none` models
an exception raised by any conversion. -/
def sumFloats (rows : List Row) (col : Str) : Option ℚ :=
  List.foldl
    (fun acc r =>
      match acc with
      | none => none
      | some a =>
        match toFloatOrZero (rowGetD r col (Value.int 0)) with
        | none => none
        | some x => some (a + x))
    (some 0) rows

/-- Round to the nearest integer, ties to even: the rounding of Python's
fixed-point float formatting, applied here to exact rationals. -/
def roundHalfEven (q : ℚ) : Int :=
  let f := Int.floor q
  let r := q - f
  if r < 1 / 2 then f else if 1 / 2 < r then f + 1 else if f % 2 = 0 then f else f + 1

/-- Pad a digit string on the left with zeros to length `n`. -/
def padZeros (n : Nat) (s : List Char) : List Char :=
  List.replicate (n - List.length s) '0' ++ s

/-- Insert thousands separators into a digit string, as Python's `,` format
option does on the integer part. -/
def withCommas (ds : List Char) : List Char :=
  let n := List.length ds
  List.flatten (List.map
    (fun i => (if i ≠ 0 && (n - i) % 3 = 0 then [','] else []) ++ [List.getD ds i '0'])
    (List.range n))

/-- Python `f"{q:.<nd>f}"` on the exact rational model (Python itself rounds
the underlying binary double; on exactly representable inputs the two
agree). -/
def formatFix (nd : Nat) (q : ℚ) : Str :=
  let scaled := roundHalfEven (q * (10 ^ nd : ℚ))
  let a := scaled.natAbs
  (if q < 0 then lit "-" else ([] : Str)) ++ lit (Nat.repr (a / 10 ^ nd)) ++
    (if nd = 0 then ([] : Str)
     else lit "." ++ (padZeros nd (Nat.repr (a % 10 ^ nd)).toList : Str))

/-- Python `f"{q:,.<nd>f}"`: fixed-point with thousands separators. -/
def formatCommaFix (nd : Nat) (q : ℚ) : Str :=
  let scaled := roundHalfEven (q * (10 ^ nd : ℚ))
  let a := scaled.natAbs
  (if q < 0 then lit "-" else ([] : Str)) ++
    (withCommas (Nat.repr (a / 10 ^ nd)).toList : Str) ++
    (if nd = 0 then ([] : Str)
     else lit "." ++ (padZeros nd (Nat.repr (a % 10 ^ nd)).toList : Str))

/-- Fractional digits of a rational in `[0,1)`, up to the given fuel, with
trailing zeros omitted. -/
def fracDigitsAux : Nat → ℚ → List Char
  | 0, _ => []
  | fuel + 1, r =>
    if r = 0 then []
    else
      let r10 := r * 10
      let d := Int.floor r10
      Char.ofNat (48 + d.toNat) :: fracDigitsAux fuel (r10 - d)

/-- Rendering of a float value by `str()`/f-string interpolation, on the
exact rational model.  CPython prints the shortest decimal that round-trips
the binary double; on the exactly representable decimals the pipeline
handles the two agree.  No claim evaluates this rendering. -/
def floatRepr (q : ℚ) : Str :=
  let a := |q|
  let w := (Int.floor a).toNat
  let ds := fracDigitsAux 17 (a - (w : ℚ))
  (if q < 0 then lit "-" else ([] : Str)) ++ lit (Nat.repr w) ++ lit "." ++
    (if ds = [] then lit "0" else (ds : Str))

/-- Python `str(v)` as used by f-string interpolation in the formatter. -/
def strOfValue : Value → Str
  | .int n => lit (if n < 0 then "-" ++ Nat.repr n.natAbs else Nat.repr n.natAbs)
  | .float q => floatRepr q
  | .str s => s
  | .null => lit "None"

/-- Business context produced by `prepare_business_context`; dictionaries
are modelled as association lists in insertion order. -/
structure BusinessContext where
  has_data : Bool
  row_count : Nat
  key_metrics : List (Str × ℚ)
  trends : List Str
  insights : List Str
  columns : Option (List Str)
deriving DecidableEq

/-- Metric keyword list of `prepare_business_context`. -/
def metricKeywords : List Str :=
  [lit "total", lit "sum", lit "count", lit "revenue", lit "amount",
   lit "value", lit "quantity", lit "avg", lit "average"]

/-- Date keyword list of the `time_series` branch. -/
def dateKeywords : List Str :=
  [lit "date", lit "month", lit "year", lit "time", lit "period"]

/-- One step of Python dict counting `value_counts[val] = value_counts.get(val, 0) + 1`,
preserving first-seen insertion order. -/
def bumpCount (acc : List (Value × Nat)) (v : Value) : List (Value × Nat) :=
  if (List.find? (fun p => decide (p.1 = v)) acc).isSome then
    List.map (fun p => if p.1 = v then (p.1, p.2 + 1) else p) acc
  else acc ++ [(v, 1)]

/-- Count the truthy values of column `col` over the given rows, in
first-seen order. -/
def countValues (rs : List Row) (col : Str) : List (Value × Nat) :=
  List.foldl
    (fun acc r =>
      match rowGet? r col with
      | none => acc
      | some v => if falsy v then acc else bumpCount acc v)
    [] rs

/-- Python `max(items, key=count)`: the first entry with maximal count. -/
def maxByCount (l : List (Value × Nat)) : Option (Value × Nat) :=
  List.foldl
    (fun best p =>
      match best with
      | none => some p
      | some b => if b.2 < p.2 then some p else some b)
    none l

/-- Sort key of the `time_series` branch: `str(x.get(date_col, ""))`. -/
def sortKeyStr (dc : Str) (r : Row) : Str := strOfValue (rowGetD r dc (Value.str []))

/-- Lexicographic code-point comparison of strings, as Python `<=` used by
`sorted`. -/
def strLe : Str → Str → Bool
  | [], _ => true
  | _ :: _, [] => false
  | a :: x, b :: y =>
    if a.toNat < b.toNat then true else if b.toNat < a.toNat then false else strLe x y

/-- The `try:` body of `prepare_business_context` after `columns` is stored:
per-branch metric extraction.  A `none` from a float conversion models the
exception path, on which the context accumulated so far is returned
unchanged. -/
def enrichContext (query_type : Str) (rows : List Row) (sample : Row)
    (columns : List Str) (context : BusinessContext) : BusinessContext :=
  if query_type = lit "customer_revenue" ∨ query_type = lit "aggregate" ∨
      query_type = lit "product_sales" then
    let numeric_cols := List.filter
      (fun col => metricKeywords.any (fun k => containsB k (lower col)) &&
        isNumV (rowGetD sample col Value.null)) columns
    if List.isEmpty numeric_cols then context
    else
      { context with
        key_metrics :=
          List.foldl
            (fun m col =>
              match sumFloats rows col with
              | some t => m ++ [(col, t)]
              | none => m)
            [] (List.take 2 numeric_cols) }
  else if query_type = lit "time_series" then
    let date_col := List.getLast?
      (List.filter (fun c => dateKeywords.any (fun k => containsB k (lower c))) columns)
    let value_col := List.getLast?
      (List.filter
        (fun c => !(dateKeywords.any (fun k => containsB k (lower c))) &&
          isNumV (rowGetD sample c Value.null)) columns)
    match date_col, value_col with
    | some dc, some vc =>
      if 2 ≤ List.length rows then
        let sorted := List.mergeSort rows (fun r1 r2 => strLe (sortKeyStr dc r1) (sortKeyStr dc r2))
        match sorted, List.getLast? sorted with
        | r0 :: _, some rl =>
          match toFloatOrZero (rowGetD r0 vc (Value.int 0)),
              toFloatOrZero (rowGetD rl vc (Value.int 0)) with
          | some first, some last =>
            if first ≠ 0 ∧ last ≠ 0 ∧ first ≠ last then
              let pct := (last - first) / first * 100
              let dir := if 0 < pct then lit "increased" else lit "decreased"
              { context with
                trends :=
                  [lit "Overall trend: " ++ dir ++ lit " by " ++ formatFix 1 |pct| ++ lit "%"] }
            else context
          | _, _ => context
        | _, _ => context
      else context
    | _, _ => context
  else if query_type = lit "customer_product_relationship" ∨
      query_type = lit "multi_table_general" then
    let categorical_cols := List.filter
      (fun col =>
        match rowGetD sample col Value.null with
        | Value.str s => decide (List.length s < 50)
        | _ => false) columns
    match categorical_cols with
    | [] => context
    | col :: _ =>
      match maxByCount (countValues (List.take 20 rows) col) with
      | none => context
      | some top =>
        { context with
          insights :=
            [lit "Most common " ++ col ++ lit ": " ++ strOfValue top.1 ++ lit " (" ++
              lit (Nat.repr top.2) ++ lit " occurrences)"] }
  else context

/-- Embedding of `prepare_business_context` from
`src/backend/app/llm/answer_formatter.py`. -/
def prepare_business_context (query_type : Str) (rows : List Row) : BusinessContext :=
  let context : BusinessContext :=
    ⟨decide (0 < List.length rows), List.length rows, [], [], [], none⟩
  match rows with
  | [] => context
  | sample :: _ =>
    let columns := rowKeys sample
    enrichContext query_type rows sample columns { context with columns := some columns }

/-- Decimal rendering of a row count for f-string interpolation. -/
def rcStr (n : Nat) : Str := lit (Nat.repr n)

/-- Single-table / aggregate / default section of `generate_local_answer`
(the code after the `if "JOIN" in sql_upper:` block, reached when that block
does not return).  `none` models an exception escaping to the outer
`except`. -/
def singleTableAnswer (sqlU : Str) (rows : List Row) (sample : Row)
    (columns : List Str) (row_count : Nat) : Option Str :=
  if containsB (lit "CUSTOMER") sqlU then
    some (lit "Customer database contains " ++ rcStr row_count ++
      lit " customer records with details including contact information and geographic data.")
  else if containsB (lit "PRODUCT") sqlU then
    some (lit "Product catalog includes " ++ rcStr row_count ++
      lit " products with pricing, category, and supplier information for inventory management.")
  else if containsB (lit "ORDER") sqlU then
    if containsB (lit "ITEM") sqlU then
      some (lit "Order details show " ++ rcStr row_count ++
        lit " line items with product quantities, prices, and extended totals for precise order tracking.")
    else
      some (lit "Order system contains " ++ rcStr row_count ++
        lit " orders with customer references, dates, amounts, and status information.")
  else if containsB (lit "REVENUE") sqlU || containsB (lit "SUM") sqlU ||
      containsB (lit "TOTAL") sqlU then
    match List.find? (fun c => isNumV (rowGetD sample c Value.null)) columns with
    | some c =>
      match sumFloats rows c with
      | none => none
      | some t =>
        some (lit "Analysis shows total of " ++ formatCommaFix 2 t ++ lit " across " ++
          rcStr row_count ++
          lit " records. This provides a high-level summary of business performance.")
    | none =>
      if row_count = 1 ∧ List.length columns = 1 then
        match sample with
        | kv :: _ => some (lit "The result is " ++ strOfValue kv.2 ++ lit ".")
        | [] => none
      else
        some (lit "Query returned " ++ rcStr row_count ++ lit " records with " ++
          lit (Nat.repr (List.length columns)) ++
          lit " data points. This provides insights into the requested business information.")
  else if row_count = 1 ∧ List.length columns = 1 then
    match sample with
    | kv :: _ => some (lit "The result is " ++ strOfValue kv.2 ++ lit ".")
    | [] => none
  else
    some (lit "Query returned " ++ rcStr row_count ++ lit " records with " ++
      lit (Nat.repr (List.length columns)) ++
      lit " data points. This provides insights into the requested business information.")

/-- The `try:` body of `generate_local_answer` for a non-empty row list.
`none` models an exception (bad numeric conversion, or indexing an empty
column list) escaping to the outer `except`. -/
def localAnswerBody (sql : Str) (rows : List Row) (sample : Row)
    (row_count : Nat) : Option Str :=
  let columns := rowKeys sample
  let sqlU := upper sql
  if containsB (lit "JOIN") sqlU then
    if containsB (lit "CUSTOMER") sqlU && containsB (lit "PRODUCT") sqlU then
      match columns with
      | [] => none
      | c0 :: _ =>
        let cust_col := (List.find?
          (fun c => containsB (lit "customer") (lower c) || containsB (lit "name") (lower c))
          columns).getD c0
        let prod_col := (List.find?
          (fun c => containsB (lit "product") (lower c) || containsB (lit "item") (lower c))
          columns).getD (if 1 < List.length columns then List.getD columns 1 c0 else c0)
        let cust_val := rowGetD sample cust_col (Value.str (lit "N/A"))
        let prod_val := rowGetD sample prod_col (Value.str (lit "N/A"))
        some (lit "Found " ++ rcStr row_count ++
          lit " customer-product relationships. For example, " ++ strOfValue cust_val ++
          lit " purchased " ++ strOfValue prod_val ++
          lit ". This shows direct purchasing patterns between customers and products.")
    else if containsB (lit "CUSTOMER") sqlU && containsB (lit "ORDER") sqlU then
      if containsB (lit "SUM") sqlU || containsB (lit "TOTAL") sqlU then
        match List.getLast? columns with
        | none => none
        | some clast =>
          let amount_col := (List.find?
            (fun c => containsB (lit "total") (lower c) || containsB (lit "amount") (lower c) ||
              containsB (lit "revenue") (lower c)) columns).getD clast
          match sumFloats rows amount_col with
          | none => none
          | some t =>
            some (lit "Customer order analysis shows " ++ rcStr row_count ++
              lit " customer records with total value of $" ++ formatCommaFix 2 t ++
              lit ". The data reveals customer spending patterns across the business.")
      else
        some (lit "Found " ++ rcStr row_count ++
          lit " customer orders in the system. Each order represents a purchase transaction with associated customer details and order information.")
    else if containsB (lit "PRODUCT") sqlU &&
        (containsB (lit "SUM") sqlU || containsB (lit "COUNT") sqlU) then
      match List.find?
          (fun c => containsB (lit "quantity") (lower c) || containsB (lit "count") (lower c))
          columns with
      | some qc =>
        match sumFloats rows qc with
        | none => none
        | some t =>
          some (lit "Product sales analysis shows " ++ rcStr row_count ++
            lit " product records with total quantity sold of " ++ formatCommaFix 0 t ++
            lit " units. This indicates product performance and demand trends.")
      | none => singleTableAnswer sqlU rows sample columns row_count
    else singleTableAnswer sqlU rows sample columns row_count
  else singleTableAnswer sqlU rows sample columns row_count

/-- Embedding of `generate_local_answer` from
`src/backend/app/llm/answer_formatter.py`.  The source computes
`user_question.lower()` but never reads it afterwards; the question argument
is kept for signature fidelity.  The `if row_count > 0:` guard inside the
customer-product branch is vacuous because the row list is non-empty on that
path. -/
def generate_local_answer (user_question sql : Str) (rows : List Row) : Str :=
  let _question_lower := lower user_question
  match rows with
  | [] => lit "No matching records found for your query."
  | sample :: _ =>
    let row_count := List.length rows
    match localAnswerBody sql rows sample row_count with
    | some ans => ans
    | none =>
      lit "Your query returned " ++ rcStr row_count ++
        lit " records. Review the data for specific business insights."

example :
    generate_local_answer (lit "total quantity sold")
      (lit "SELECT SUM(order_items.quantity) FROM order_items")
      [[(lit "total_qty", Value.int 7)]] =
    lit "Order details show 1 line items with product quantities, prices, and extended totals for precise order tracking." := by
  decide

example : generate_local_answer (lit "q") (lit "s") [] =
    lit "No matching records found for your query." := by decide

example :
    prepare_business_context (lit "aggregate") [] =
      ⟨false, 0, [], [], [], none⟩ := by decide

example :
    (prepare_business_context (lit "aggregate") [[(lit "total_qty", Value.int 7)]]).columns =
      some [lit "total_qty"] := by decide

/-! ### Bridge lemmas between the executable string functions and list order -/

theorem containsB_iff {p l : Str} : containsB p l = true ↔ p <:+: l := by
  induction l with
  | nil => simp [containsB]
  | cons c t ih => simp [containsB, List.infix_cons_iff, ih]

theorem containsB_eq_false_iff {p l : Str} : containsB p l = false ↔ ¬ p <:+: l := by
  rw [← containsB_iff]
  cases containsB p l <;> simp

theorem containsB_mono {p l₁ l₂ : Str} (h : l₁ <:+: l₂)
    (hc : containsB p l₁ = true) : containsB p l₂ = true :=
  containsB_iff.mpr ((containsB_iff.mp hc).trans h)

theorem containsB_false_mono {p l₁ l₂ : Str} (h : l₁ <:+: l₂)
    (hc : containsB p l₂ = false) : containsB p l₁ = false := by
  rw [containsB_eq_false_iff] at hc ⊢
  exact fun hi => hc (hi.trans h)

theorem lower_infix_mono {l₁ l₂ : Str} (h : l₁ <:+: l₂) : lower l₁ <:+: lower l₂ :=
  List.IsInfix.map Char.toLower h

theorem ltrim_suffix (l : Str) : ltrim l <:+ l := List.dropWhile_suffix _

theorem rtrim_pre (l : Str) : rtrim l <+: l := by
  have h := List.dropWhile_suffix (l := List.reverse l) (p := isWS)
  rw [← List.reverse_prefix] at h
  simpa [rtrim] using h

theorem stripWS_inf (l : Str) : stripWS l <:+: l :=
  ((rtrim_pre (ltrim l)).isInfix).trans (ltrim_suffix l).isInfix

theorem rstripSemi_pre (l : Str) : rstripSemi l <+: l := by
  have h := List.dropWhile_suffix (l := List.reverse l) (p := fun c => c = ';')
  rw [← List.reverse_prefix] at h
  simpa [rstripSemi] using h

/-! ### Claim theorems: empty-result handling and schema-shape dependence -/

/-- C8.  Scenario E: for the empty row list and every query type,
`prepare_business_context` returns a context with `has_data = false`,
`row_count = 0` and empty key metrics, trends and insights (no metric
extraction is attempted, and no column list is recorded); and for every
question and SQL string, `generate_local_answer` on an empty row list
returns the fixed no-matching-records message. -/
theorem scenarioE_empty_rows :
    (∀ query_type : Str, prepare_business_context query_type [] =
      ⟨false, 0, [], [], [], none⟩) ∧
    (∀ question sql : Str, generate_local_answer question sql [] =
      lit "No matching records found for your query.") :=
  ⟨fun _ => rfl, fun _ _ => rfl⟩

/-- C10.  For every question, `generate_local_sql` applied to a
schema-summary dictionary with no top-level `"tables"` key — the shape
`get_schema_summary` produces (its only top-level keys are `"schema"` and
`"samples"`) and the query route passes through — returns the
`information_schema.tables` metadata query, regardless of the question's
keywords; no keyword-selected domain template is reachable. -/
theorem schema_shape_metadata_fallback (q : Str) :
    generate_local_sql q ⟨none⟩ = fallbackMetaQuery := by
  simp only [generate_local_sql, localSqlDefault, getTables, Option.getD]
  simp [elemStr]

/-- C2 counterexample.  At the spec's own Scenario D input the Row Limiter
does not produce the advertised string: the subquery alias in the code is
`_sub`, not `subquery`. -/
theorem row_limiter_alias_counterexample :
    wrap_with_limit (lit "SELECT * FROM orders") 50 ≠
      (lit "SELECT * FROM (SELECT * FROM orders) AS subquery LIMIT :_limit",
       [(lit "_limit", (50 : Int))]) := by decide

/-- C2 (amended).  `wrap_with_limit` strips one trailing semicolon (with any
whitespace after it) and returns exactly the pair
`("SELECT * FROM (" ++ stripped ++ ") AS _sub LIMIT :_limit", [("_limit", max_rows)])`;
the SQL text of the result never depends on `max_rows` (the bound is passed
only as a parameter, never interpolated). -/
theorem row_limiter_shape (sql : Str) (a b : Int) :
    wrap_with_limit sql a =
      (lit "SELECT * FROM (" ++ stripTrailingSemi sql ++ lit ") AS _sub LIMIT :_limit",
       [(lit "_limit", a)]) ∧
    (wrap_with_limit sql a).1 = (wrap_with_limit sql b).1 :=
  ⟨rfl, rfl⟩

/-- C9.  The denylist matches raw substrings of the lowercased SQL, so every
SELECT mentioning a column such as `created_at` (which contains `create`) or
`updated_at` (which contains `update`) is rejected, even when it is a single
SELECT statement with no comment and no second statement: the concrete
statement `SELECT created_at FROM users` matches the `^\s*select\b` anchor,
contains neither `;` nor `--`, and is still rejected. -/
theorem denylist_overbreadth :
    (∀ s : Str, containsB (lit "created_at") (lower s) = true →
      is_safe_select s = false) ∧
    (∀ s : Str, containsB (lit "updated_at") (lower s) = true →
      is_safe_select s = false) ∧
    startsSelectB (lower (lit "SELECT created_at FROM users")) = true ∧
    containsB (lit ";") (lower (lit "SELECT created_at FROM users")) = false ∧
    containsB (lit "--") (lower (lit "SELECT created_at FROM users")) = false ∧
    is_safe_select (lit "SELECT created_at FROM users") = false := by
  refine ⟨?_, ?_, by decide, by decide, by decide, by decide⟩
  · intro s h
    have hcr : containsB (lit "create") (lower s) = true :=
      containsB_mono (containsB_iff.mp h) (by decide)
    have hne : s ≠ ([] : Str) := by
      intro he
      rw [he] at h
      exact absurd h (by decide)
    have hany : DISALLOWED.any (fun kw => containsB kw (lower s)) = true :=
      List.any_eq_true.mpr ⟨lit "create", by decide, hcr⟩
    simp [is_safe_select, hne, hany]
  · intro s h
    have hcr : containsB (lit "update") (lower s) = true :=
      containsB_mono (containsB_iff.mp h) (by decide)
    have hne : s ≠ ([] : Str) := by
      intro he
      rw [he] at h
      exact absurd h (by decide)
    have hany : DISALLOWED.any (fun kw => containsB kw (lower s)) = true :=
      List.any_eq_true.mpr ⟨lit "update", by decide, hcr⟩
    simp [is_safe_select, hne, hany]

/-- C9 witness: the general rejection lemmas applied at a concrete
`created_at` / `updated_at` SELECT. -/
theorem denylist_overbreadth_witness :
    containsB (lit "created_at") (lower (lit "SELECT created_at FROM t")) = true ∧
    is_safe_select (lit "SELECT created_at FROM t") = false ∧
    containsB (lit "updated_at") (lower (lit "SELECT updated_at FROM t")) = true ∧
    is_safe_select (lit "SELECT updated_at FROM t") = false :=
  ⟨by decide, denylist_overbreadth.1 (lit "SELECT created_at FROM t") (by decide),
   by decide, denylist_overbreadth.2.1 (lit "SELECT updated_at FROM t") (by decide)⟩

theorem safe_localSqlDefault (ts : List Str) :
    is_safe_select (localSqlDefault ts) = true := by
  unfold localSqlDefault
  split
  · decide
  · decide

/-- C3.  For every question string and every schema summary, the SQL string
returned by the deterministic fallback generator passes the Safety Gate. -/
theorem fallback_passes_safety_gate (q : Str) (sch : SchemaSummary) :
    is_safe_select (generate_local_sql q sch) = true := by
  simp only [generate_local_sql]
  repeat' split
  all_goals first
    | exact safe_localSqlDefault _
    | decide

/-- C5 counterexample.  At Scenario A's own inputs (question "Show top 5
customers", schema with `customers` and `orders`) the fallback does not
return a `customers JOIN orders … GROUP BY … ORDER BY total_spent DESC`
statement: the question contains none of `spent`/`spending`/`total`, so the
plain customer-listing template is chosen, which contains neither `JOIN` nor
`GROUP BY` nor `total_spent`. -/
theorem scenarioA_counterexample :
    containsB (lit "JOIN")
      (upper (generate_local_sql (lit "Show top 5 customers")
        ⟨some [lit "customers", lit "orders"]⟩)) = false ∧
    containsB (lit "total_spent")
      (generate_local_sql (lit "Show top 5 customers")
        ⟨some [lit "customers", lit "orders"]⟩) = false ∧
    containsB (lit "GROUP BY")
      (generate_local_sql (lit "Show top 5 customers")
        ⟨some [lit "customers", lit "orders"]⟩) = false := by decide

/-- C5 (amended).  For the question "Show top 5 customers" and any
schema-summary whose tables mapping contains `customers` and `orders`, the
local fallback returns the plain customer-listing statement (a single-table
`SELECT … FROM customers c ORDER BY c.registration_date DESC LIMIT …`, with
no JOIN), and `detect_query_type` classifies that statement as
`customer_list` (one of the two outcomes the spec allows). -/
theorem scenarioA_customer_list (ts : List Str)
    (hc : elemStr (lit "customers") ts = true)
    (ho : elemStr (lit "orders") ts = true) :
    generate_local_sql (lit "Show top 5 customers") ⟨some ts⟩ = fallbackCustomerList ∧
    detect_query_type fallbackCustomerList (lit "Show top 5 customers") =
      lit "customer_list" := by
  refine ⟨?_, by decide⟩
  have h1 : anyWord [lit "customer", lit "client", lit "buyer"]
      (lower (lit "Show top 5 customers")) = true := by decide
  have h2 : containsB (lit "spent") (lower (lit "Show top 5 customers")) = false := by decide
  have h3 : containsB (lit "spending") (lower (lit "Show top 5 customers")) = false := by
    decide
  have h4 : containsB (lit "total") (lower (lit "Show top 5 customers")) = false := by decide
  simp [generate_local_sql, getTables, h1, h2, h3, h4, hc, ho]

/-- C5 witness: the amended statement at the concrete two-table schema. -/
theorem scenarioA_customer_list_witness :
    generate_local_sql (lit "Show top 5 customers")
      ⟨some [lit "customers", lit "orders"]⟩ = fallbackCustomerList ∧
    detect_query_type fallbackCustomerList (lit "Show top 5 customers") =
      lit "customer_list" :=
  scenarioA_customer_list [lit "customers", lit "orders"] (by decide) (by decide)

/-- C4 counterexample.  A SQL text containing `SUM(order_items.quantity)`
necessarily contains the substrings `ORDER` and `ITEM`, so at Scenario B's
inputs `detect_query_type` returns `order_details`, not `aggregate`. -/
theorem scenarioB_counterexample :
    containsB (lit "SUM(ORDER_ITEMS.QUANTITY)")
      (upper (lit "SELECT SUM(order_items.quantity) FROM order_items")) = true ∧
    containsB (lit "JOIN")
      (upper (lit "SELECT SUM(order_items.quantity) FROM order_items")) = false ∧
    detect_query_type (lit "SELECT SUM(order_items.quantity) FROM order_items")
      (lit "total quantity sold") = lit "order_details" ∧
    lit "order_details" ≠ lit "aggregate" := by decide

/-- C4 (amended).  For the question "total quantity sold" and any SQL whose
uppercased text contains `SUM(ORDER_ITEMS.QUANTITY)` but neither `JOIN` nor
`CUSTOMER` nor `PRODUCT`, `detect_query_type` returns `order_details` (the
`ORDER`/`ITEM` substrings of `order_items` capture the classification before
the `aggregate` rule), and for every non-empty row list the narrative
fallback returns the fixed order-details template, which contains the
literal row count but no computed numeric total. -/
theorem scenarioB_order_details (sql : Str) (rows : List Row) (r : Row) (rs : List Row)
    (hrows : rows = r :: rs)
    (hsum : containsB (lit "SUM(ORDER_ITEMS.QUANTITY)") (upper sql) = true)
    (hnj : containsB (lit "JOIN") (upper sql) = false)
    (hnc : containsB (lit "CUSTOMER") (upper sql) = false)
    (hnp : containsB (lit "PRODUCT") (upper sql) = false) :
    detect_query_type sql (lit "total quantity sold") = lit "order_details" ∧
    generate_local_answer (lit "total quantity sold") sql rows =
      lit "Order details show " ++ rcStr (List.length rows) ++
        lit " line items with product quantities, prices, and extended totals for precise order tracking." := by
  have hord : containsB (lit "ORDER") (upper sql) = true :=
    containsB_mono (containsB_iff.mp hsum) (by decide)
  have hitem : containsB (lit "ITEM") (upper sql) = true :=
    containsB_mono (containsB_iff.mp hsum) (by decide)
  constructor
  · simp [detect_query_type, hnj, hnc, hnp, hord, hitem]
  · subst hrows
    simp [generate_local_answer, localAnswerBody, singleTableAnswer,
      hnj, hnc, hnp, hord, hitem]

/-- C4 witness: the amended statement at a concrete SQL and one-row result
set. -/
theorem scenarioB_order_details_witness :
    detect_query_type (lit "SELECT SUM(order_items.quantity) FROM order_items")
      (lit "total quantity sold") = lit "order_details" ∧
    generate_local_answer (lit "total quantity sold")
      (lit "SELECT SUM(order_items.quantity) FROM order_items")
      [[(lit "total_qty", Value.int 7)]] =
      lit "Order details show 1 line items with product quantities, prices, and extended totals for precise order tracking." := by
  have h := scenarioB_order_details
    (lit "SELECT SUM(order_items.quantity) FROM order_items")
    [[(lit "total_qty", Value.int 7)]] [(lit "total_qty", Value.int 7)] [] rfl
    (by decide) (by decide) (by decide) (by decide)
  exact ⟨h.1, h.2.trans (by decide)⟩

theorem toLower_idem (c : Char) : Char.toLower (Char.toLower c) = Char.toLower c := by
  by_cases h : 65 ≤ c.toNat ∧ c.toNat ≤ 90
  · have h1 : Char.toLower c = Char.ofNat (c.toNat + 32) := by
      simp only [Char.toLower]
      rw [if_pos h]
    rw [h1]
    obtain ⟨ha, hb⟩ := h
    revert h1
    generalize c.toNat = n at ha hb ⊢
    intro _
    interval_cases n <;> decide
  · have h1 : Char.toLower c = c := by
      simp only [Char.toLower]
      rw [if_neg h]
    rw [h1, h1]

theorem lower_of_mem_lower {c : Char} {s : Str} (h : c ∈ lower s) :
    Char.toLower c = c := by
  obtain ⟨x, _, rfl⟩ := List.mem_map.mp h
  exact toLower_idem x

theorem lower_ltrim_lower (s : Str) : lower (ltrim (lower s)) = ltrim (lower s) := by
  have h : ∀ c ∈ ltrim (lower s), Char.toLower c = c := fun c hc =>
    lower_of_mem_lower ((ltrim_suffix (lower s)).sublist.subset hc)
  exact (List.map_congr_left h).trans (List.map_id' _)

/-- C1.  Safety Gate soundness: every string the gate accepts contains, in
lowercased form, none of the twelve denylisted substrings, and begins (after
optional leading whitespace) with the keyword `select`; the empty string is
always rejected. -/
theorem safety_gate_sound :
    (∀ s : Str, is_safe_select s = true →
      (∀ kw ∈ DISALLOWED, ¬ kw <:+: lower s) ∧
        lit "select" <+: ltrim (lower s)) ∧
    is_safe_select ([] : Str) = false := by
  refine ⟨?_, by decide⟩
  intro s h
  by_cases h0 : s = ([] : Str)
  · rw [h0] at h
    exact absurd h (by decide)
  rw [is_safe_select, if_neg h0] at h
  by_cases hd : DISALLOWED.any (fun kw => containsB kw (lower s)) = true
  · rw [if_pos hd] at h
    exact absurd h (by decide)
  rw [if_neg hd] at h
  constructor
  · intro kw hkw hinf
    exact hd (List.any_eq_true.mpr ⟨kw, hkw, containsB_iff.mpr hinf⟩)
  · have h1 := (Bool.and_eq_true_iff.mp h).1
    have h2 : lit "select" <+: lower (ltrim (lower s)) :=
      List.isPrefixOf_iff_prefix.mp h1
    rwa [lower_ltrim_lower] at h2

/-- C1 witness: the soundness statement applied to a concrete accepted
string. -/
theorem safety_gate_sound_witness :
    is_safe_select (lit "  SELECT name FROM customers") = true ∧
    (∀ kw ∈ DISALLOWED, ¬ kw <:+: lower (lit "  SELECT name FROM customers")) ∧
    lit "select" <+: ltrim (lower (lit "  SELECT name FROM customers")) :=
  ⟨by decide,
   (safety_gate_sound.1 (lit "  SELECT name FROM customers") (by decide)).1,
   (safety_gate_sound.1 (lit "  SELECT name FROM customers") (by decide)).2⟩

/-! ### Code-fence removal: identity without fences, and fence-freeness of
output -/

theorem fence_guard_sql {l : Str} (h : prefixCI (lit "```sql") l = true) :
    containsB (lit "```") (lower l) = true := by
  have h1 : lit "```sql" <+: lower l := List.isPrefixOf_iff_prefix.mp h
  have h2 : lit "```" <+: lit "```sql" := by decide
  exact containsB_iff.mpr (h2.trans h1).isInfix

theorem fence_guard_bare {l : Str} (h : List.isPrefixOf (lit "```") l = true) :
    containsB (lit "```") (lower l) = true := by
  have h1 : lit "```" <+: l := List.isPrefixOf_iff_prefix.mp h
  have h2 := List.IsPrefix.map Char.toLower h1
  have h3 : List.map Char.toLower (lit "```") = lit "```" := by decide
  rw [h3] at h2
  exact containsB_iff.mpr h2.isInfix

theorem containsB_lower_cons_false {p : Str} {c : Char} {t : Str}
    (h : containsB p (lower (c :: t)) = false) : containsB p (lower t) = false := by
  rw [lower, List.map_cons] at h
  rw [containsB] at h
  exact (Bool.or_eq_false_iff.mp h).2

theorem removeFenceSqlAux_id :
    ∀ (fuel : Nat) (l : Str), containsB (lit "```") (lower l) = false →
      removeFenceSqlAux fuel l = l := by
  intro fuel
  induction fuel with
  | zero => intro l _; cases l <;> rfl
  | succ fuel ih =>
    intro l h
    cases l with
    | nil => rfl
    | cons c rest =>
      rw [removeFenceSqlAux]
      rw [if_neg]
      · rw [ih rest (containsB_lower_cons_false h)]
      · intro hg
        rw [fence_guard_sql hg] at h
        cases h


theorem removeFenceAux_id :
    ∀ (fuel : Nat) (l : Str), containsB (lit "```") (lower l) = false →
      removeFenceAux fuel l = l := by
  intro fuel
  induction fuel with
  | zero => intro l _; cases l <;> rfl
  | succ fuel ih =>
    intro l h
    cases l with
    | nil => rfl
    | cons c rest =>
      rw [removeFenceAux]
      rw [if_neg]
      · rw [ih rest (containsB_lower_cons_false h)]
      · intro hg
        rw [fence_guard_bare hg] at h
        cases h

theorem defence_id {l : Str} (h : containsB (lit "```") (lower l) = false) :
    defence l = l := by
  rw [defence, removeFenceSql, removeFenceSqlAux_id _ _ h, removeFence,
    removeFenceAux_id _ _ h]

theorem toLower_backtick {c : Char} (h : Char.toLower c = Char.ofNat 96) :
    c = Char.ofNat 96 := by
  by_cases hr : 65 ≤ c.toNat ∧ c.toNat ≤ 90
  · exfalso
    have h1 : Char.toLower c = Char.ofNat (c.toNat + 32) := by
      simp only [Char.toLower]
      rw [if_pos hr]
    rw [h1] at h
    obtain ⟨ha, hb⟩ := hr
    revert h
    generalize c.toNat = n at ha hb ⊢
    interval_cases n <;> decide
  · have h1 : Char.toLower c = c := by
      simp only [Char.toLower]
      rw [if_neg hr]
    rwa [h1] at h

theorem fence_head_bare {fuel : Nat} :
    ∀ {l : Str}, List.isPrefixOf (lit "`") (lower (removeFenceAux fuel l)) = true →
      List.isPrefixOf (lit "`") (lower l) = true := by
  induction fuel with
  | zero =>
    intro l h
    cases l with
    | nil => exact h
    | cons c rest => exact h
  | succ fuel ih =>
    intro l h
    cases l with
    | nil => exact h
    | cons c rest =>
      rw [removeFenceAux] at h
      by_cases hg : List.isPrefixOf (lit "```") (c :: rest) = true
      · -- the list itself starts with three backticks
        have h1 : lit "```" <+: c :: rest := List.isPrefixOf_iff_prefix.mp hg
        have h2 := List.IsPrefix.map Char.toLower h1
        have h3 : List.map Char.toLower (lit "```") = lit "```" := by decide
        rw [h3] at h2
        apply List.isPrefixOf_iff_prefix.mpr
        exact (by decide : lit "`" <+: lit "```").trans h2
      · rw [if_neg hg] at h
        -- output starts with `toLower c`
        rw [lower, List.map_cons] at h ⊢
        have h4 := List.isPrefixOf_iff_prefix.mp h
        have h5 : lit "`" = [Char.ofNat 96] := by decide
        rw [h5] at h4 ⊢
        rw [List.cons_prefix_cons] at h4
        exact List.isPrefixOf_iff_prefix.mpr
          (List.cons_prefix_cons.mpr ⟨h4.1, List.nil_prefix⟩)

theorem fence_head2_bare {fuel : Nat} :
    ∀ {l : Str}, List.isPrefixOf (lit "``") (lower (removeFenceAux fuel l)) = true →
      List.isPrefixOf (lit "``") (lower l) = true := by
  induction fuel with
  | zero =>
    intro l h
    cases l with
    | nil => exact h
    | cons c rest => exact h
  | succ fuel _ =>
    intro l h
    cases l with
    | nil => exact h
    | cons c rest =>
      rw [removeFenceAux] at h
      by_cases hg : List.isPrefixOf (lit "```") (c :: rest) = true
      · have h1 : lit "```" <+: c :: rest := List.isPrefixOf_iff_prefix.mp hg
        have h2 := List.IsPrefix.map Char.toLower h1
        have h3 : List.map Char.toLower (lit "```") = lit "```" := by decide
        rw [h3] at h2
        apply List.isPrefixOf_iff_prefix.mpr
        exact (by decide : lit "``" <+: lit "```").trans h2
      · rw [if_neg hg] at h
        rw [lower, List.map_cons] at h ⊢
        have h4 := List.isPrefixOf_iff_prefix.mp h
        have h5 : lit "``" = [Char.ofNat 96, Char.ofNat 96] := by decide
        rw [h5] at h4 ⊢
        rw [List.cons_prefix_cons] at h4
        have h6 : List.isPrefixOf (lit "`")
            (lower (removeFenceAux fuel rest)) = true := by
          apply List.isPrefixOf_iff_prefix.mpr
          have h7 : lit "`" = [Char.ofNat 96] := by decide
          rw [h7]
          exact (List.cons_prefix_cons.mpr ⟨rfl, List.nil_prefix⟩).trans h4.2
        have h8 := fence_head_bare h6
        rw [lower] at h8
        have h9 := List.isPrefixOf_iff_prefix.mp h8
        have h7 : lit "`" = [Char.ofNat 96] := by decide
        rw [h7] at h9
        exact List.isPrefixOf_iff_prefix.mpr
          (List.cons_prefix_cons.mpr ⟨h4.1, h9⟩)

theorem tripleFree_removeFenceAux :
    ∀ (fuel : Nat) (l : Str), List.length l ≤ fuel →
      containsB (lit "```") (lower (removeFenceAux fuel l)) = false := by
  intro fuel
  induction fuel with
  | zero =>
    intro l hl
    have h0 : l = [] := List.length_eq_zero.mp (Nat.le_zero.mp hl)
    subst h0
    decide
  | succ fuel ih =>
    intro l hl
    cases l with
    | nil =>
      have e0 : removeFenceAux (fuel + 1) ([] : Str) = [] := rfl
      rw [e0]
      decide
    | cons c rest =>
      rw [removeFenceAux]
      by_cases hg : List.isPrefixOf (lit "```") (c :: rest) = true
      · rw [if_pos hg]
        apply ih
        calc (ltrim (List.drop 3 (c :: rest))).length
            ≤ (List.drop 3 (c :: rest)).length := (List.dropWhile_sublist _).length_le
          _ ≤ fuel := by
              simp only [List.length_drop, List.length_cons] at hl ⊢
              omega
      · rw [if_neg hg]
        simp only [lower, List.map_cons]
        rw [containsB]
        refine Bool.or_eq_false_iff.mpr ⟨?_, ?_⟩
        · cases hp : List.isPrefixOf (lit "```")
              (Char.toLower c :: List.map Char.toLower (removeFenceAux fuel rest)) with
          | false => rfl
          | true =>
            exfalso
            have h1 := List.isPrefixOf_iff_prefix.mp hp
            have h5 : lit "```" = [Char.ofNat 96, Char.ofNat 96, Char.ofNat 96] := by
              decide
            rw [h5, List.cons_prefix_cons] at h1
            obtain ⟨hc1, h1⟩ := h1
            have hc : c = Char.ofNat 96 := toLower_backtick hc1.symm
            have h2 : List.isPrefixOf (lit "``")
                (lower (removeFenceAux fuel rest)) = true := by
              apply List.isPrefixOf_iff_prefix.mpr
              have h6 : lit "``" = [Char.ofNat 96, Char.ofNat 96] := by decide
              rw [h6]
              exact h1
            have h3 := fence_head2_bare h2
            have h4 := List.isPrefixOf_iff_prefix.mp h3
            have h6 : lit "``" = [Char.ofNat 96, Char.ofNat 96] := by decide
            rw [h6] at h4
            cases rest with
            | nil => simp [lower] at h4
            | cons x rest2 =>
              rw [lower, List.map_cons, List.cons_prefix_cons] at h4
              obtain ⟨hx, h4⟩ := h4
              have hx' : x = Char.ofNat 96 := toLower_backtick hx.symm
              cases rest2 with
              | nil => simp at h4
              | cons y rest3 =>
                rw [List.map_cons, List.cons_prefix_cons] at h4
                obtain ⟨hy, _⟩ := h4
                have hy' : y = Char.ofNat 96 := toLower_backtick hy.symm
                apply hg
                subst hc hx' hy'
                apply List.isPrefixOf_iff_prefix.mpr
                rw [h5]
                exact List.cons_prefix_cons.mpr ⟨rfl, List.cons_prefix_cons.mpr ⟨rfl,
                  List.cons_prefix_cons.mpr ⟨rfl, List.nil_prefix⟩⟩⟩
        · have h7 := ih rest (by simp only [List.length_cons] at hl; omega)
          simpa [lower] using h7

theorem tripleFree_defence (l : Str) :
    containsB (lit "```") (lower (defence l)) = false := by
  rw [defence, removeFence]
  exact tripleFree_removeFenceAux _ _ le_rfl

/-! ### Whitespace and semicolon trimming lemmas -/

theorem dropWhile_idem {p : Char → Bool} (l : List Char) :
    List.dropWhile p (List.dropWhile p l) = List.dropWhile p l := by
  induction l with
  | nil => rfl
  | cons a t ih =>
    by_cases h : p a = true
    · rw [List.dropWhile_cons_of_pos h, ih]
    · rw [List.dropWhile_cons_of_neg (by simp [h]),
        List.dropWhile_cons_of_neg (by simp [h])]

theorem ltrim_idem (l : Str) : ltrim (ltrim l) = ltrim l := by
  simp only [ltrim]
  exact dropWhile_idem l

theorem rtrim_idem (l : Str) : rtrim (rtrim l) = rtrim l := by
  rw [rtrim, rtrim, List.reverse_reverse, dropWhile_idem]

theorem ltrim_eq_self_cons {c : Char} {t : Str} (h : ltrim (c :: t) = c :: t) :
    isWS c = false := by
  by_contra hb
  rw [Bool.not_eq_false] at hb
  rw [ltrim, List.dropWhile_cons_of_pos hb] at h
  have h1 := congrArg List.length h
  have h2 := (List.dropWhile_sublist (p := isWS) (l := t)).length_le
  simp only [List.length_cons] at h1
  omega

theorem ltrim_rtrim_of_ltrim_eq {y : Str} (hy : ltrim y = y) :
    ltrim (rtrim y) = rtrim y := by
  cases hr : rtrim y with
  | nil => rfl
  | cons c t =>
    have hp : rtrim y <+: y := rtrim_pre y
    rw [hr] at hp
    cases y with
    | nil => simp at hp
    | cons d y2 =>
      rw [List.cons_prefix_cons] at hp
      obtain ⟨rfl, _⟩ := hp
      have hws : isWS c = false := ltrim_eq_self_cons hy
      rw [ltrim, List.dropWhile_cons_of_neg (by simp [hws])]

theorem stripWS_idem (l : Str) : stripWS (stripWS l) = stripWS l := by
  rw [stripWS, stripWS, ltrim_rtrim_of_ltrim_eq (ltrim_idem l), rtrim_idem]

theorem stripWS_eq_self_parts {v : Str} (h : stripWS v = v) :
    ltrim v = v ∧ rtrim v = v := by
  have h2 : (rtrim (ltrim v)).length ≤ (ltrim v).length :=
    (rtrim_pre _).sublist.length_le
  have h3 : v.length ≤ (ltrim v).length := by
    have h1 := congrArg List.length h
    rw [stripWS] at h1
    omega
  have h4 : ltrim v = v := (ltrim_suffix v).sublist.eq_of_length
    (Nat.le_antisymm (List.Sublist.length_le (ltrim_suffix v).sublist) h3)
  refine ⟨h4, ?_⟩
  rw [stripWS, h4] at h
  exact h

theorem rstripSemi_eq_self {l : Str} (h : ';' ∉ l) : rstripSemi l = l := by
  rw [rstripSemi]
  cases hr : List.reverse l with
  | nil =>
    rw [List.dropWhile_nil, ← hr, List.reverse_reverse]
  | cons c t =>
    have hc : c ∈ l := by
      have hm : c ∈ List.reverse l := by
        rw [hr]
        exact List.mem_cons_self _ _
      simpa using hm
    have hd : decide (c = ';') = false :=
      decide_eq_false (fun he => h (he ▸ hc))
    rw [List.dropWhile_cons_of_neg (by simp [hd]), ← hr, List.reverse_reverse]

/-- A pattern that avoids every character of `b` and is not an infix of `a`
is not an infix of `a ++ b`: an occurrence either lies inside `a` or covers
a position of `b` with one of the pattern's own characters. -/
theorem no_infix_append_of_disjoint {p a b : List Char} (hp : p ≠ [])
    (hd : ∀ c ∈ p, c ∉ b) (ha : ¬ p <:+: a) : ¬ p <:+: a ++ b := by
  rintro ⟨s, t, hst⟩
  by_cases hle : s.length + p.length ≤ a.length
  · apply ha
    have hpre0 : s ++ p <+: a ++ b := ⟨t, by rw [← hst, List.append_assoc]⟩
    have he := List.prefix_iff_eq_take.mp hpre0
    rw [List.take_append_of_le_length (by simpa using hle)] at he
    have hpre : s ++ p <+: a := by
      rw [he]
      exact List.take_prefix _ _
    obtain ⟨t', ht'⟩ := hpre
    exact ⟨s, t', by rw [← ht', List.append_assoc]⟩
  · push_neg at hle
    have hplen : 0 < p.length := List.length_pos.mpr hp
    set i := max s.length a.length with hi
    have h4 : i < (a ++ b).length := by
      have hlen := congrArg List.length hst
      simp only [List.length_append] at hlen ⊢
      omega
    have hia : a.length ≤ i := Nat.le_max_right _ _
    have his : s.length ≤ i := Nat.le_max_left _ _
    have hip : i < s.length + p.length := by
      have hlt : a.length < s.length + p.length := hle
      omega
    have e2 : (a ++ b)[i] ∈ b := by
      rw [List.getElem_append_right hia]
      exact List.getElem_mem _
    have e1 : (a ++ b)[i] ∈ p := by
      have hst' : a ++ b = s ++ (p ++ t) := by rw [← hst, List.append_assoc]
      rw [List.getElem_of_eq hst' h4, List.getElem_append_right his,
        List.getElem_append_left (show i - s.length < p.length by omega)]
      exact List.getElem_mem _
    exact hd _ e1 e2

theorem notriple_append {v : Str}
    (htf : containsB (lit "```") (lower v) = false) :
    containsB (lit "```") (lower (v ++ limitClause)) = false := by
  rw [containsB_eq_false_iff] at htf ⊢
  rw [lower, List.map_append]
  exact no_infix_append_of_disjoint (by decide) (by decide) htf

theorem hasLimit_append (v : Str) :
    containsB (lit "LIMIT") (upper (v ++ limitClause)) = true := by
  rw [upper, List.map_append]
  exact containsB_mono (List.suffix_append _ _).isInfix (by decide)

theorem startsSelectB_eq (l : Str) :
    startsSelectB l = (List.isPrefixOf (lit "select") (lower (ltrim l)) &&
      (match List.drop 6 (ltrim l) with
       | [] => true
       | c :: _ => !(isWordChar c))) := rfl

theorem startsSelectB_append_limit {v : Str} (hv : v ≠ []) (hl : ltrim v = v)
    (hs : startsSelectB v = true) : startsSelectB (v ++ limitClause) = true := by
  obtain ⟨c, t, rfl⟩ := List.exists_cons_of_ne_nil hv
  have hc : isWS c = false := ltrim_eq_self_cons hl
  have hlt2 : ltrim ((c :: t) ++ limitClause) = (c :: t) ++ limitClause := by
    rw [List.cons_append, ltrim, List.dropWhile_cons_of_neg (by simp [hc])]
  rw [startsSelectB_eq, hlt2]
  rw [startsSelectB_eq, hl] at hs
  have hs' := Bool.and_eq_true_iff.mp hs
  have hpre : lit "select" <+: lower (c :: t) := List.isPrefixOf_iff_prefix.mp hs'.1
  have hlen : 6 ≤ (c :: t).length := by
    have hle := hpre.length_le
    have e1 : (lit "select").length = 6 := by decide
    have e2 : (lower (c :: t)).length = t.length + 1 := by simp [lower]
    rw [e1, e2] at hle
    simp only [List.length_cons]
    omega
  refine Bool.and_eq_true_iff.mpr ⟨?_, ?_⟩
  · apply List.isPrefixOf_iff_prefix.mpr
    rw [lower, List.map_append]
    exact hpre.trans (List.prefix_append _ _)
  · rw [List.drop_append_of_le_length hlen]
    cases h6 : List.drop 6 (c :: t) with
    | nil =>
      rw [List.nil_append]
      decide
    | cons d ds =>
      rw [List.cons_append]
      have h2 := hs'.2
      rw [h6] at h2
      simpa using h2

theorem clean_sql_fix {v : Str} (hv : v ≠ []) (hstrip : stripWS v = v)
    (hsemi : ';' ∉ v) (htf : containsB (lit "```") (lower v) = false)
    (hsel : startsSelectB v = true) :
    clean_sql (addLimit v) = addLimit v := by
  obtain ⟨hl, _⟩ := stripWS_eq_self_parts hstrip
  by_cases hcond : (containsB (lit "LIMIT") (upper v) || hasAgg v) = true
  · rw [addLimit, if_pos hcond]
    simp only [clean_sql, if_neg hv, defence_id htf, hstrip,
      rstripSemi_eq_self hsemi, hsel, eq_self_iff_true, if_true, addLimit, hcond]
  · rw [addLimit, if_neg hcond]
    have hvne2 : v ++ limitClause ≠ ([] : Str) := by
      intro h
      rcases List.append_eq_nil.mp h with ⟨_, hL⟩
      exact absurd hL (by decide)
    have htf2 := notriple_append htf
    have hsemi2 : ';' ∉ v ++ limitClause := by
      intro hm
      rcases List.mem_append.mp hm with hm | hm
      · exact hsemi hm
      · exact absurd hm (by decide)
    have hsel2 := startsSelectB_append_limit hv hl hsel
    obtain ⟨c, t, rfl⟩ := List.exists_cons_of_ne_nil hv
    have hc : isWS c = false := ltrim_eq_self_cons hl
    have hlt2 : ltrim ((c :: t) ++ limitClause) = (c :: t) ++ limitClause := by
      rw [List.cons_append, ltrim, List.dropWhile_cons_of_neg (by simp [hc])]
    have hrt2 : rtrim ((c :: t) ++ limitClause) = (c :: t) ++ limitClause := by
      rw [rtrim, List.reverse_append, List.dropWhile_append, if_neg (by decide),
        (by decide : List.dropWhile isWS (List.reverse limitClause) =
          List.reverse limitClause), ← List.reverse_append, List.reverse_reverse]
    have hstrip2 : stripWS ((c :: t) ++ limitClause) = (c :: t) ++ limitClause := by
      rw [stripWS, hlt2, hrt2]
    have hcond2 : (containsB (lit "LIMIT") (upper ((c :: t) ++ limitClause)) ||
        hasAgg ((c :: t) ++ limitClause)) = true := by
      rw [hasLimit_append]
      rfl
    simp only [clean_sql, if_neg hvne2, defence_id htf2, hstrip2,
      rstripSemi_eq_self hsemi2, hsel2, eq_self_iff_true, if_true, addLimit, hcond2]

theorem startsSelectB_eq_false_of_no_select {u : Str}
    (h : containsB (lit "select") (lower u) = false) : startsSelectB u = false := by
  cases hb : startsSelectB u
  · rfl
  · exfalso
    rw [startsSelectB_eq] at hb
    have h1 := (Bool.and_eq_true_iff.mp hb).1
    have h2 : lit "select" <+: lower (ltrim u) := List.isPrefixOf_iff_prefix.mp h1
    have h3 : lower (ltrim u) <:+: lower u := lower_infix_mono (ltrim_suffix u).isInfix
    rw [containsB_eq_false_iff] at h
    exact h (h2.isInfix.trans h3)

theorem extractSelect_eq_none_of_no_select :
    ∀ {u : Str}, containsB (lit "select") (lower u) = false → extractSelect u = none := by
  intro u
  induction u with
  | nil => intro _; rfl
  | cons c rest ih =>
    intro h
    have hnp : ¬ prefixCI (lit "select") (c :: rest) = true := by
      intro hp
      rw [containsB_eq_false_iff] at h
      exact h (List.isPrefixOf_iff_prefix.mp hp).isInfix
    rw [extractSelect, trySelectAt, if_neg hnp]
    exact ih (containsB_lower_cons_false h)

/-- C6 counterexample.  A SELECT-free text is not normalised to the empty
string: `clean_sql "hello world"` is the non-empty string `" LIMIT 1000"`
(the default LIMIT clause is appended to the empty extraction). -/
theorem clean_sql_no_select_counterexample :
    containsB (lit "select") (lower (lit "hello world")) = false ∧
    clean_sql (lit "hello world") = lit " LIMIT 1000" ∧
    clean_sql (lit "hello world") ≠ ([] : Str) := by decide

/-- C6 (amended).  For every non-empty string with no occurrence of `select`
(case-insensitively) and no code-fence marker, `clean_sql` treats the text
as an empty extraction and then appends the default LIMIT clause: the result
is `" LIMIT 1000"`, not the empty string.  (Fence-marker-free is required
because removing "```" markers can splice a `select` together; the empty
string itself is returned unchanged.) -/
theorem clean_sql_no_select (t : Str) (ht : t ≠ ([] : Str))
    (h1 : containsB (lit "select") (lower t) = false)
    (h2 : containsB (lit "```") (lower t) = false) :
    clean_sql t = limitClause := by
  have hinf : rstripSemi (stripWS t) <:+: t :=
    (rstripSemi_pre _).isInfix.trans (stripWS_inf t)
  have h1u : containsB (lit "select") (lower (rstripSemi (stripWS t))) = false :=
    containsB_false_mono (lower_infix_mono hinf) h1
  simp only [clean_sql, if_neg ht, defence_id h2,
    startsSelectB_eq_false_of_no_select h1u, Bool.false_eq_true, if_false,
    extractPart, extractSelect_eq_none_of_no_select h1u]
  decide

/-- C6 witness: the amended statement at the concrete input
`"hello world"`. -/
theorem clean_sql_no_select_witness :
    (lit "hello world" ≠ ([] : Str)) ∧
    containsB (lit "select") (lower (lit "hello world")) = false ∧
    containsB (lit "```") (lower (lit "hello world")) = false ∧
    clean_sql (lit "hello world") = limitClause :=
  ⟨by decide, by decide, by decide,
   clean_sql_no_select (lit "hello world") (by decide) (by decide) (by decide)⟩

/-! ### Properties of the SELECT-span extraction -/

theorem toLower_of_isWS {c : Char} (h : isWS c = true) : Char.toLower c = c := by
  simp only [isWS, Bool.or_eq_true, decide_eq_true_eq] at h
  rcases h with ((((h | h) | h) | h) | h) | h <;> subst h <;> decide

theorem isWordChar_of_isWS {c : Char} (h : isWS c = true) : isWordChar c = false := by
  simp only [isWS, Bool.or_eq_true, decide_eq_true_eq] at h
  rcases h with ((((h | h) | h) | h) | h) | h <;> subst h <;> decide

theorem prefix_take_of_le {x y : List Char} {n : Nat} (h : x <+: y)
    (hn : x.length ≤ n) : x <+: List.take n y := by
  have he := List.prefix_iff_eq_take.mp h
  rw [List.prefix_iff_eq_take, List.take_take, Nat.min_eq_left hn]
  exact he

theorem prefix_of_prefix_append_ws :
    ∀ {p x y : List Char}, p <+: x ++ y → (∀ c ∈ p, isWS c = false) →
      (∀ c ∈ y, isWS c = true) → p <+: x := by
  intro p
  induction p with
  | nil => intro x y _ _ _; exact List.nil_prefix
  | cons c p' ih =>
    intro x y h hp hy
    cases x with
    | nil =>
      exfalso
      rw [List.nil_append] at h
      cases y with
      | nil => simp at h
      | cons d ys =>
        rw [List.cons_prefix_cons] at h
        obtain ⟨he, -⟩ := h
        subst he
        have h1 := hp c (List.mem_cons_self _ _)
        have h2 := hy c (List.mem_cons_self _ _)
        rw [h1] at h2
        cases h2
    | cons e x' =>
      rw [List.cons_append, List.cons_prefix_cons] at h
      obtain ⟨he, h2⟩ := h
      subst he
      rw [List.cons_prefix_cons]
      exact ⟨rfl, ih h2 (fun a ha => hp a (List.mem_cons_of_mem _ ha)) hy⟩

theorem rtrim_decomp (g : Str) :
    g = rtrim g ++ List.reverse (List.takeWhile isWS (List.reverse g)) ∧
    ∀ c ∈ List.reverse (List.takeWhile isWS (List.reverse g)), isWS c = true := by
  constructor
  · rw [rtrim, ← List.reverse_append, List.takeWhile_append_dropWhile,
      List.reverse_reverse]
  · intro c hc
    rw [List.mem_reverse] at hc
    exact List.mem_takeWhile_imp hc

theorem trySelectAt_props {l g : Str} (h : trySelectAt l = some g) :
    g <+: l ∧ List.isPrefixOf (lit "select") (lower g) = true ∧
    (∀ d ds, List.drop 6 g = d :: ds → isWS d = true) := by
  rw [trySelectAt] at h
  by_cases hp : prefixCI (lit "select") l = true
  · rw [if_pos hp] at h
    by_cases hk : (List.takeWhile isWS (List.drop 6 l)).length = 0
    · rw [if_pos hk] at h
      cases h
    · rw [if_neg hk] at h
      by_cases hm : (List.drop 6 l).length = (List.takeWhile isWS (List.drop 6 l)).length
      · rw [if_pos hm] at h
        by_cases h2k : 2 ≤ (List.takeWhile isWS (List.drop 6 l)).length
        · rw [if_pos h2k] at h
          injection h with h
          subst h
          refine ⟨List.prefix_refl _, hp, ?_⟩
          intro d ds hdds
          have htw : List.takeWhile isWS (List.drop 6 l) = List.drop 6 l :=
            (List.takeWhile_prefix _).sublist.eq_of_length hm.symm
          have hd : d ∈ List.takeWhile isWS (List.drop 6 l) := by
            rw [htw, hdds]
            exact List.mem_cons_self _ _
          exact List.mem_takeWhile_imp hd
        · rw [if_neg h2k] at h
          cases h
      · rw [if_neg hm] at h
        injection h with h
        have hk1 : 1 ≤ (List.takeWhile isWS (List.drop 6 l)).length :=
          Nat.one_le_iff_ne_zero.mpr hk
        subst h
        refine ⟨List.take_prefix _ _, ?_, ?_⟩
        · apply List.isPrefixOf_iff_prefix.mpr
          have hsel : lit "select" <+: lower l := List.isPrefixOf_iff_prefix.mp hp
          have hmt : lower (List.take
              (6 + (List.takeWhile isWS (List.drop 6 l)).length + 1 +
                stopLen (List.drop
                  (6 + (List.takeWhile isWS (List.drop 6 l)).length + 1) l)) l) =
              List.take
              (6 + (List.takeWhile isWS (List.drop 6 l)).length + 1 +
                stopLen (List.drop
                  (6 + (List.takeWhile isWS (List.drop 6 l)).length + 1) l))
              (lower l) := by
            rw [lower, lower, List.map_take]
          rw [hmt]
          exact prefix_take_of_le hsel (by
            have : (lit "select").length = 6 := by decide
            omega)
        · intro d ds hdds
          rw [List.drop_take] at hdds
          cases hafter : List.drop 6 l with
          | nil =>
            rw [hafter] at hdds
            simp at hdds
          | cons a0 as =>
            have ha0 : isWS a0 = true := by
              by_contra hb
              rw [Bool.not_eq_true] at hb
              have hk1' : 1 ≤ (List.takeWhile isWS (a0 :: as)).length := hafter ▸ hk1
              rw [List.takeWhile_cons_of_neg (by simp [hb])] at hk1'
              simp at hk1'
            rw [hafter] at hdds
            cases hX : 6 + (List.takeWhile isWS (a0 :: as)).length + 1 +
                stopLen (List.drop
                  (6 + (List.takeWhile isWS (a0 :: as)).length + 1) l) - 6 with
            | zero =>
              rw [hX] at hdds
              simp at hdds
            | succ m =>
              rw [hX, List.take_succ_cons] at hdds
              injection hdds with h1 _
              rw [← h1]
              exact ha0
  · rw [if_neg hp] at h
    cases h

theorem mem_removeFenceSqlAux {c : Char} :
    ∀ {fuel : Nat} {l : Str}, c ∈ removeFenceSqlAux fuel l → c ∈ l := by
  intro fuel
  induction fuel with
  | zero =>
    intro l h
    cases l with
    | nil => exact h
    | cons d rest => exact h
  | succ fuel ih =>
    intro l h
    cases l with
    | nil => exact h
    | cons d rest =>
      rw [removeFenceSqlAux] at h
      by_cases hg : prefixCI (lit "```sql") (d :: rest) = true
      · rw [if_pos hg] at h
        have h1 := ih h
        have h2 := (List.dropWhile_sublist (p := isWS)
          (l := List.drop 6 (d :: rest))).subset h1
        exact (List.drop_subset _ _) h2
      · rw [if_neg hg] at h
        rcases List.mem_cons.mp h with h | h
        · exact h ▸ List.mem_cons_self _ _
        · exact List.mem_cons_of_mem _ (ih h)

theorem mem_removeFenceAux {c : Char} :
    ∀ {fuel : Nat} {l : Str}, c ∈ removeFenceAux fuel l → c ∈ l := by
  intro fuel
  induction fuel with
  | zero =>
    intro l h
    cases l with
    | nil => exact h
    | cons d rest => exact h
  | succ fuel ih =>
    intro l h
    cases l with
    | nil => exact h
    | cons d rest =>
      rw [removeFenceAux] at h
      by_cases hg : List.isPrefixOf (lit "```") (d :: rest) = true
      · rw [if_pos hg] at h
        have h1 := ih h
        have h2 := (List.dropWhile_sublist (p := isWS)
          (l := List.drop 3 (d :: rest))).subset h1
        exact (List.drop_subset _ _) h2
      · rw [if_neg hg] at h
        rcases List.mem_cons.mp h with h | h
        · exact h ▸ List.mem_cons_self _ _
        · exact List.mem_cons_of_mem _ (ih h)

theorem mem_defence {c : Char} {l : Str} (h : c ∈ defence l) : c ∈ l :=
  mem_removeFenceSqlAux (mem_removeFenceAux h)

theorem extractSelect_some {u g : Str} (h : extractSelect u = some g) :
    ∃ l, l <:+ u ∧ trySelectAt l = some g := by
  induction u with
  | nil => cases h
  | cons c rest ih =>
    rw [extractSelect] at h
    cases ht : trySelectAt (c :: rest) with
    | some g' =>
      rw [ht] at h
      injection h with h
      subst h
      exact ⟨c :: rest, List.suffix_refl _, ht⟩
    | none =>
      rw [ht] at h
      obtain ⟨l, hl, h2⟩ := ih h
      exact ⟨l, hl.trans (List.suffix_cons _ _), h2⟩

theorem extract_props {u g : Str} (hx : extractSelect u = some g) :
    stripWS g <:+: u ∧ stripWS g ≠ [] ∧ startsSelectB (stripWS g) = true := by
  obtain ⟨l, hlsuf, ht⟩ := extractSelect_some hx
  obtain ⟨hgl, hsel, hbnd⟩ := trySelectAt_props ht
  have hselp : lit "select" <+: lower g := List.isPrefixOf_iff_prefix.mp hsel
  cases hg : g with
  | nil =>
    exfalso
    rw [hg] at hselp
    have hlen := hselp.length_le
    have e1 : (lit "select").length = 6 := by decide
    simp only [lower, List.map_nil, List.length_nil, e1] at hlen
    omega
  | cons g0 g1 =>
    subst hg
    have hsp := hselp
    rw [lower, List.map_cons] at hsp
    have e2 : lit "select" = 's' :: lit "elect" := by decide
    rw [e2, List.cons_prefix_cons] at hsp
    obtain ⟨hs0, -⟩ := hsp
    have hg0 : isWS g0 = false := by
      by_contra hb
      rw [Bool.not_eq_false] at hb
      have h3 := toLower_of_isWS hb
      rw [h3] at hs0
      rw [← hs0] at hb
      exact absurd hb (by decide)
    have hlt : ltrim (g0 :: g1) = g0 :: g1 := by
      rw [ltrim, List.dropWhile_cons_of_neg (by simp [hg0])]
    have hstrip_eq : stripWS (g0 :: g1) = rtrim (g0 :: g1) := by rw [stripWS, hlt]
    have hrne : rtrim (g0 :: g1) ≠ [] := by
      intro he
      rw [rtrim, List.reverse_eq_nil_iff, List.dropWhile_eq_nil_iff] at he
      have hm := he g0 (by simp)
      rw [hg0] at hm
      cases hm
    obtain ⟨hdecomp, hws⟩ := rtrim_decomp (g0 :: g1)
    have hsell : lit "select" <+: lower (rtrim (g0 :: g1)) := by
      apply prefix_of_prefix_append_ws
        (y := lower (List.reverse (List.takeWhile isWS (List.reverse (g0 :: g1)))))
      · have hcat : lower (rtrim (g0 :: g1)) ++
            lower (List.reverse (List.takeWhile isWS (List.reverse (g0 :: g1)))) =
            lower (g0 :: g1) := by
          rw [lower, lower, lower, ← List.map_append, ← hdecomp]
        rw [hcat]
        exact hselp
      · decide
      · intro c hc
        obtain ⟨x, hxw, rfl⟩ := List.mem_map.mp hc
        rw [toLower_of_isWS (hws x hxw)]
        exact hws x hxw
    have hltr : ltrim (rtrim (g0 :: g1)) = rtrim (g0 :: g1) :=
      ltrim_rtrim_of_ltrim_eq hlt
    have hssb : startsSelectB (rtrim (g0 :: g1)) = true := by
      rw [startsSelectB_eq, hltr]
      refine Bool.and_eq_true_iff.mpr ⟨List.isPrefixOf_iff_prefix.mpr hsell, ?_⟩
      cases h6 : List.drop 6 (rtrim (g0 :: g1)) with
      | nil => rfl
      | cons d ds =>
        have h6lt : 6 < (rtrim (g0 :: g1)).length := by
          have hlen := congrArg List.length h6
          simp only [List.length_drop, List.length_cons] at hlen
          omega
        have hd6 : (rtrim (g0 :: g1))[6] = d := by
          have hh := List.head?_drop (rtrim (g0 :: g1)) 6
          rw [h6, List.getElem?_eq_getElem h6lt] at hh
          simp only [List.head?_cons] at hh
          exact (Option.some.inj hh).symm
        have h6g : 6 < (g0 :: g1).length :=
          lt_of_lt_of_le h6lt (rtrim_pre _).length_le
        cases h6d : List.drop 6 (g0 :: g1) with
        | nil =>
          have hlen : (g0 :: g1).length - 6 = 0 := by
            rw [← List.length_drop, h6d]
            rfl
          omega
        | cons e es =>
          have he : isWS e = true := hbnd e es h6d
          have he6 : (g0 :: g1)[6] = e := by
            have hh := List.head?_drop (g0 :: g1) 6
            rw [h6d, List.getElem?_eq_getElem h6g] at hh
            simp only [List.head?_cons] at hh
            exact (Option.some.inj hh).symm
          have hde : d = e := by
            have hpg := (rtrim_pre (g0 :: g1)).getElem h6lt
            rw [hd6] at hpg
            rw [← he6]
            exact hpg
          rw [hde]
          simp [isWordChar_of_isWS he]
    refine ⟨?_, ?_, ?_⟩
    · rw [hstrip_eq]
      exact ((rtrim_pre _).trans hgl).isInfix.trans hlsuf.isInfix
    · rw [hstrip_eq]
      exact hrne
    · rw [hstrip_eq]
      exact hssb

/-- C7 counterexample.  Normalisation is not idempotent: on
`"select a limit 5; ;;"` the first pass strips only the trailing
semicolons, leaving `"select a limit 5; "`, and a second pass then strips
the newly exposed trailing `"; "` as well. -/
theorem clean_sql_idem_counterexample :
    clean_sql (lit "select a limit 5; ;;") = lit "select a limit 5; " ∧
    clean_sql (lit "select a limit 5; ") = lit "select a limit 5" ∧
    clean_sql (clean_sql (lit "select a limit 5; ;;")) ≠
      clean_sql (lit "select a limit 5; ;;") := by decide

/-- C7 (amended).  For every input containing no semicolon, normalisation is
idempotent: `clean_sql (clean_sql s) = clean_sql s`.  (With semicolons the
interleaving of `strip()` and `rstrip(';')` can expose new trailing
semicolons on a second pass, as the counterexample shows.) -/
theorem clean_sql_idem_nosemi (s : Str) (hs : ';' ∉ s) :
    clean_sql (clean_sql s) = clean_sql s := by
  by_cases h0 : s = ([] : Str)
  · subst h0
    decide
  · have hw := tripleFree_defence s
    have hsemi_w : ';' ∉ defence s := fun hm => hs (mem_defence hm)
    have hsemi_sw : ';' ∉ stripWS (defence s) :=
      fun hm => hsemi_w ((stripWS_inf _).subset hm)
    set u := rstripSemi (stripWS (defence s)) with hu
    have hueq : u = stripWS (defence s) := by
      rw [hu, rstripSemi_eq_self hsemi_sw]
    have huinf : u <:+: defence s := by
      rw [hueq]
      exact stripWS_inf _
    have hsemi_u : ';' ∉ u := fun hm => hsemi_w (huinf.subset hm)
    have htf_u : containsB (lit "```") (lower u) = false :=
      containsB_false_mono (lower_infix_mono huinf) hw
    have hstrip_u : stripWS u = u := by
      rw [hueq]
      exact stripWS_idem _
    by_cases hsel : startsSelectB u = true
    · have hcs : clean_sql s = addLimit u := by
        simp only [clean_sql, if_neg h0]
        rw [← hu]
        simp [hsel]
      have hune : u ≠ [] := by
        intro he
        rw [he] at hsel
        exact absurd hsel (by decide)
      rw [hcs]
      exact clean_sql_fix hune hstrip_u hsemi_u htf_u hsel
    · rw [Bool.not_eq_true] at hsel
      cases hx : extractSelect u with
      | none =>
        have hcs : clean_sql s = limitClause := by
          simp only [clean_sql, if_neg h0]
          rw [← hu]
          simp only [hsel, Bool.false_eq_true, if_false, extractPart, hx]
          decide
        rw [hcs]
        decide
      | some g =>
        obtain ⟨hginf, hgne, hgsel⟩ := extract_props hx
        have hcs : clean_sql s = addLimit (stripWS g) := by
          simp only [clean_sql, if_neg h0]
          rw [← hu]
          simp only [hsel, Bool.false_eq_true, if_false, extractPart, hx]
        rw [hcs]
        have hsemi_v : ';' ∉ stripWS g := fun hm => hsemi_u (hginf.subset hm)
        have htf_v : containsB (lit "```") (lower (stripWS g)) = false :=
          containsB_false_mono (lower_infix_mono hginf) htf_u
        exact clean_sql_fix hgne (stripWS_idem g) hsemi_v htf_v hgsel

/-- C7 witness: idempotence at a concrete semicolon-free input. -/
theorem clean_sql_idem_nosemi_witness :
    (';' ∉ lit "  SELECT a FROM b  ") ∧
    clean_sql (clean_sql (lit "  SELECT a FROM b  ")) =
      clean_sql (lit "  SELECT a FROM b  ") :=
  ⟨by decide, clean_sql_idem_nosemi (lit "  SELECT a FROM b  ") (by decide)⟩
